import Mathlib

/-!
The docker-compose executor of `src/main.go`.

A shallow embedding of the operation-execution-and-verification flow of
`src/main.go`: the service table, `ExecuteDockerCommands`,
`runDockerCommands`, `findDockerContainerStatus`, the three methods
`Start` / `Stop` / `Restart`, `HelpCallback` and `main`.

* Go strings are byte sequences: `GoString = List UInt8`.
* The container runtime is an oracle (`Runtime`): given the invocations made
  so far and the next one, it answers with the captured output and the `error`
  value that `exec.Cmd.Output` / `exec.Cmd.CombinedOutput` would return.
* The observable effects are collected in a `World`: the subprocess
  invocations, in order, and the lines written by `fmt.Println`.
* `os.Exit` is the constructor `Res.exit`; a normal return is `Res.ret`.
-/

namespace DockerCompose

/-- A Go `string`: a read-only sequence of bytes. -/
abbrev GoString := List UInt8

/-- The bytes of an ASCII string literal of the source. -/
def ascii (s : String) : GoString := s.toList.map (fun c => UInt8.ofNat c.toNat)

/-! ## The functions of package `strings` that the source calls -/

namespace strings

/-- `strings.HasSuffix(s, suffix)`. -/
def HasSuffix (s suffix : GoString) : Bool := suffix.isSuffixOf s

/-- `strings.TrimSuffix(s, suffix)`: `s` without the trailing `suffix`, or `s`
itself when it does not end in `suffix`. -/
def TrimSuffix (s suffix : GoString) : GoString :=
  if HasSuffix s suffix then s.take (s.length - suffix.length) else s

/-- `strings.Index(s, substr)`: the index of the first instance of `substr` in
`s`; Go's `-1` is `none`. -/
def Index : GoString → GoString → Option Nat
  | [], substr => if substr = [] then some 0 else none
  | c :: s, substr =>
    if substr.isPrefixOf (c :: s) then some 0 else (Index s substr).map (· + 1)

/-- `strings.Contains(s, substr)`, in Go `Index(s, substr) >= 0`. -/
def Contains (s substr : GoString) : Bool := (Index s substr).isSome

/-- The loop of `strings.genSplit` (with `sepSave = 0`): at most `n` cuts at the
first instance of `sep`, the rest of the string is the last piece. -/
def genSplit (sep : GoString) : Nat → GoString → List GoString
  | 0, s => [s]
  | n + 1, s =>
    match Index s sep with
    | none => [s]
    | some m => s.take m :: genSplit sep n (s.drop (m + sep.length))

/-- `strings.Split(s, sep)` for a non-empty separator: all the substrings of `s`
separated by `sep`. Go bounds the loop by `Count(s, sep)`, after which `Index`
finds nothing; `s.length` bounds it as well. The empty separator (Go then
explodes `s` into UTF-8 sequences) is not passed by this program and is outside
this model. -/
def Split (s sep : GoString) : List GoString := genSplit sep s.length s

end strings

/-! ## Constants and the service table -/

def START : GoString := ascii "start"
def STOP : GoString := ascii "stop"
def RESTART : GoString := ascii "restart"
def ApplicationName : GoString := ascii "docker-compose-executor"
def AppOpenMsg : GoString := ascii "This is the docker-compose-executor application!"

/-- The variable `usageStr` (lines 16-19), a raw string literal. -/
def usageStr : GoString :=
  ascii ("\nUsage: ./main service operation\t\tStart app with requested \x7bservice\x7d " ++
    "and \x7boperation\x7d\n       -h\t\t\t\t\t\t\tShow this message\n")

def ConfigSeedServiceKey : GoString := ascii "edgex-config-seed"
def CoreCommandServiceKey : GoString := ascii "edgex-core-command"
def CoreDataServiceKey : GoString := ascii "edgex-core-data"
def CoreMetaDataServiceKey : GoString := ascii "edgex-core-metadata"
def ExportClientServiceKey : GoString := ascii "edgex-export-client"
def ExportDistroServiceKey : GoString := ascii "edgex-export-distro"
def SupportLoggingServiceKey : GoString := ascii "edgex-support-logging"
def SupportNotificationsServiceKey : GoString := ascii "edgex-support-notifications"
def SystemManagementAgentServiceKey : GoString := ascii "edgex-sys-mgmt-agent"
def SupportSchedulerServiceKey : GoString := ascii "edgex-support-scheduler"

/-- The entries of the map literal `services`, in source order. -/
def servicesTable : List (GoString × GoString) :=
  [ (SupportNotificationsServiceKey, ascii "Notifications"),
    (CoreCommandServiceKey, ascii "Command"),
    (CoreDataServiceKey, ascii "CoreData"),
    (CoreMetaDataServiceKey, ascii "Metadata"),
    (ExportClientServiceKey, ascii "Export"),
    (ExportDistroServiceKey, ascii "Distro"),
    (SupportLoggingServiceKey, ascii "Logging"),
    (SupportSchedulerServiceKey, ascii "Scheduler") ]

/-- The map `services`: `services[key]` with its comma-ok flag, `none` when the
key is absent. The keys of the literal are pairwise distinct. -/
def services (key : GoString) : Option GoString := servicesTable.lookup key

/-! ## The runtime and the observable effects -/

/-- Which method of `exec.Cmd` captures the output. -/
inductive Capture where
  | CombinedOutput
  | Output
deriving DecidableEq

/-- One subprocess invocation `exec.Command(name, args...)`. -/
structure Invocation where
  name : GoString
  args : List GoString
  capture : Capture
deriving DecidableEq

/-- The non-nil `error` values of `exec.Cmd.Output` / `CombinedOutput`:
the command ran and did not exit with status 0 (`*exec.ExitError`), or it
could not be started at all (missing binary, permission denied). -/
inductive ExecErr where
  | exitError (msg : GoString)
  | startError (msg : GoString)
deriving DecidableEq

/-- The method `err.Error()`. -/
def ExecErr.Error : ExecErr → GoString
  | .exitError msg => msg
  | .startError msg => msg

/-- What a capture method returns: the output and the error (`none` is `nil`). -/
structure CmdResult where
  out : GoString
  err : Option ExecErr
deriving DecidableEq

/-- The container runtime seen from the program: the answer to an invocation,
given the invocations made before it. -/
abbrev Runtime := List Invocation → Invocation → CmdResult

/-- The effects of a run: the subprocess invocations and the lines printed
on standard output, both in order. -/
structure World where
  calls : List Invocation
  stdout : List GoString
deriving DecidableEq

/-- The world before the program has done anything. -/
def World.init : World := ⟨[], []⟩

/-- The outcome of a function that may call `os.Exit`. -/
inductive Res (α : Type) where
  | ret (val : α) (w : World)
  | exit (code : Nat) (w : World)
deriving DecidableEq

/-- The final world of an outcome. -/
def Res.world {α : Type} : Res α → World
  | .ret _ w => w
  | .exit _ w => w

/-- The exit status of the process when `r` is the outcome of `main`:
0 when `main` returns, the argument of `os.Exit` otherwise. -/
def Res.exitCode {α : Type} : Res α → Nat
  | .ret _ _ => 0
  | .exit code _ => code

/-- `fmt.Println(operands...)` for string operands: the operands separated by
single spaces, then a newline. -/
def Println (operands : List GoString) (w : World) : World :=
  { w with stdout := w.stdout ++ [(ascii " ").intercalate operands ++ ascii "\n"] }

/-- Runs one subprocess and records the invocation. -/
def exec (rt : Runtime) (inv : Invocation) (w : World) : CmdResult × World :=
  (rt w.calls inv, { w with calls := w.calls ++ [inv] })

/-! ## The program -/

/-- The `for ... range` loop of `findDockerContainerStatus` (lines 177-199). -/
def scanLines (service status : GoString) : List GoString → World → Bool × World
  | [], w => (false, w)
  | line :: rest, w =>
    if strings.Contains line service then
      if status = ascii "Up" then
        if strings.Contains line (ascii "Up") then
          (true, Println [ascii "container started", ascii "service name", service,
            ascii "details", line] w)
        else
          (false, Println [ascii "container NOT started", ascii "service name", service] w)
      else if status = ascii "Exited" then
        if strings.Contains line (ascii "Exited") then
          (true, Println [ascii "container stopped", ascii "service name", service,
            ascii "details", line] w)
        else
          (false, Println [ascii "container NOT stopped", ascii "service name", service] w)
      else scanLines service status rest w
    else scanLines service status rest w

/-- The invocation `exec.Command("docker", "ps").Output()`. -/
def psCommand : Invocation := ⟨ascii "docker", [ascii "ps"], .Output⟩

/-- The lines that `findDockerContainerStatus` ranges over (line 177). -/
def outputLines (dockerOutput : GoString) : List GoString :=
  strings.Split (strings.TrimSuffix dockerOutput (ascii "\n")) (ascii "\n")

/-- The function `findDockerContainerStatus` (lines 161-200). -/
def findDockerContainerStatus (rt : Runtime) (service status : GoString) (w : World) :
    Res Bool :=
  let r := exec rt psCommand w
  match r.1.err with
  | some err =>
    .exit 1 (Println [ascii "error running the docker command", ascii "error message",
      err.Error] r.2)
  | none =>
    let dockerOutput := r.1.out
    let found := scanLines service status (outputLines dockerOutput) r.2
    .ret found.1 found.2

/-- The invocation `exec.Command("docker", operation, dockerService).CombinedOutput()`
of `runDockerCommands`. -/
def actionCommand (operation dockerService : GoString) : Invocation :=
  ⟨ascii "docker", [operation, dockerService], .CombinedOutput⟩

/-- The check after a successful action command: `findDockerContainerStatus`
followed by the message printed when it answers false (lines 243-245, 247-249,
251-253). -/
def verify (rt : Runtime) (service status failed : GoString) (w : World) : Res Unit :=
  match findDockerContainerStatus rt service status w with
  | .exit code w1 => .exit code w1
  | .ret found w1 =>
    if !found then .ret () (Println [failed, ascii "service name", service] w1)
    else .ret () w1

/-- The function `runDockerCommands` (lines 217-255). `cmd.Dir` is the empty
string: the command runs in the current directory. -/
def runDockerCommands (rt : Runtime) (service dockerService operation : GoString)
    (w : World) : Res Unit :=
  let r := exec rt (actionCommand operation dockerService) w
  match r.1.err with
  | some err =>
    .ret () (Println [ascii "associated output", ascii "error message", r.1.out]
      (Println [ascii "docker command failed", ascii "error message", err.Error] r.2))
  | none =>
    if operation = ascii "start" then
      verify rt service (ascii "Up") (ascii "docker start operation failed") r.2
    else if operation = ascii "stop" then
      verify rt service (ascii "Exited") (ascii "docker stop operation failed") r.2
    else if operation = ascii "restart" then
      verify rt service (ascii "Up") (ascii "docker restart operation failed") r.2
    else .ret () r.2

/-- The function `ExecuteDockerCommands` (lines 202-215). The returned `error`
is `none` for `nil` and `some msg` for `fmt.Errorf("unknown service: %v", service)`. -/
def ExecuteDockerCommands (rt : Runtime) (service operation : GoString) (w : World) :
    Res (Option GoString) :=
  match services service with
  | some dockerService =>
    match runDockerCommands rt service dockerService operation w with
    | .exit code w1 => .exit code w1
    | .ret _ w1 => .ret none w1
  | none =>
    let newError := ascii "unknown service: " ++ service
    .ret (some newError) (Println [newError] w)

/-- The method `(*ExecuteDockerCompose).Start`. -/
def Start (rt : Runtime) (service : GoString) (w : World) : Res (Option GoString) :=
  ExecuteDockerCommands rt service (ascii "start") w

/-- The method `(*ExecuteDockerCompose).Stop`. -/
def Stop (rt : Runtime) (service : GoString) (w : World) : Res (Option GoString) :=
  ExecuteDockerCommands rt service (ascii "stop") w

/-- The method `(*ExecuteDockerCompose).Restart`. -/
def Restart (rt : Runtime) (service : GoString) (w : World) : Res (Option GoString) :=
  ExecuteDockerCommands rt service (ascii "restart") w

/-- One `case` of the switch in `main`: the call of the method and the line
printed when it returns a non-nil error. -/
def report (r : Res (Option GoString)) (msg service : GoString) : Res Unit :=
  match r with
  | .exit code w => .exit code w
  | .ret (some _) w => .ret () (Println [msg, service] w)
  | .ret none w => .ret () w

/-- The block `if len(os.Args) > 2` of `main` (lines 97-143), `osArgs` being
`os.Args`. The type assertions on `executorClient` all succeed, since
`*ExecuteDockerCompose` has the three methods, so the `else` branches of lines
111, 122 and 133 are dead. -/
def dispatch (rt : Runtime) (osArgs : List GoString) (w : World) : Res Unit :=
  match osArgs with
  | _ :: service :: operation :: _ =>
    if operation = START then
      report (Start rt service w) (ascii "error starting service: ") service
    else if operation = STOP then
      report (Stop rt service w) (ascii "error stopping service: ") service
    else if operation = RESTART then
      report (Restart rt service w) (ascii "error restarting service: ") service
    else
      .ret () (Println [ascii "unknown operation was requested: ", operation] w)
  | _ => .ret () w

/-- The function `HelpCallback` (lines 76-80), `prog` being `os.Args[0]`.
`usageStr` has no formatting verb, so `fmt.Sprintf(usageStr, os.Args[0])` is
`usageStr` followed by the marker of the extra operand; `fmt.Printf("%s\n", msg)`
writes it with a newline, and `os.Exit(0)` ends the process. -/
def HelpCallback (prog : GoString) (w : World) : Res Unit :=
  let msg := usageStr ++ ascii "%!(EXTRA string=" ++ prog ++ ascii ")"
  .exit 0 { w with stdout := w.stdout ++ [msg ++ ascii "\n"] }

namespace flag

/-- Whether `(*FlagSet).parseOne` takes the argument `s` for a flag: `s` has at
least two bytes, starts with `-` (byte 45) and is not the terminator `--`. -/
def isFlag (s : GoString) : Bool :=
  match s with
  | c0 :: c1 :: rest => decide (c0 = 45) && !(decide (c1 = 45) && rest.isEmpty)
  | _ => false

/-- Whether `flag.Parse()` calls `flag.Usage`, `arguments` being `os.Args[1:]`.
The program defines no flag, so `parseOne` stops at a first argument that is
not taken for a flag, and calls `usage` for one that is: on bad syntax, on
`-h` / `-help`, and on any other name, which is not defined. The messages that
package `flag` writes go to standard error, which is not part of `World`. -/
def parseCallsUsage (arguments : List GoString) : Bool :=
  match arguments with
  | [] => false
  | s :: _ => isFlag s

end flag

/-- The three lines that `main` prints after `flag.Parse()` (lines 89-93);
`elapsed` is the string of `time.Since(start)`. -/
def banner (elapsed : GoString) (w : World) : World :=
  Println [ascii "Application started in: " ++ elapsed]
    (Println [AppOpenMsg]
      (Println [ascii "Starting the " ++ ApplicationName ++ ascii " application..."] w))

/-- The function `main` (lines 82-144). `os.Args` is `prog :: args`, and
`elapsed` is the string of `time.Since(start)`. `flag.Usage` is `HelpCallback`,
which exits the process, so `flag.Parse()` returns only when it does not call
it. -/
def main (rt : Runtime) (elapsed prog : GoString) (args : List GoString) (w : World) :
    Res Unit :=
  if flag.parseCallsUsage args then HelpCallback prog w
  else dispatch rt (prog :: args) (banner elapsed w)


/-! ## Specification-level notions -/

/-- Some line contains `name` as a substring, and the first (topmost) such
line contains `state` as a substring. -/
def FirstMatchHas (lines : List GoString) (name state : GoString) : Prop :=
  ∃ pre line post, lines = pre ++ line :: post ∧ (∀ l ∈ pre, ¬ name <:+: l) ∧
    name <:+: line ∧ state <:+: line

/-- The state substring that `runDockerCommands` asks `findDockerContainerStatus`
for after a successful `operation` (lines 242-254). -/
def expectedState (operation : GoString) : GoString :=
  if operation = ascii "stop" then ascii "Exited" else ascii "Up"

/-- The line that `runDockerCommands` prints when the check after `operation`
answers false. -/
def failureLine (operation service : GoString) : GoString :=
  ascii "docker " ++ operation ++ ascii " operation failed service name " ++ service
    ++ ascii "\n"

/-! ## Concrete runtimes and inputs -/

/-- A runtime that answers `list` to `docker ps` and `action` to every other
command, whatever happened before. -/
def fixedRuntime (action list : CmdResult) : Runtime :=
  fun _ inv => if inv = psCommand then list else action

/-- A list output whose only container line names `CoreData`, up for 5 seconds. -/
def listCoreDataUp : GoString :=
  ascii "CONTAINER ID   IMAGE   STATUS   NAMES\nCoreData ... Up 5 seconds\n"

/-- A list output with two lines naming `edgex-core-data`: the first one up,
the second one exited. -/
def listTwoLines : GoString :=
  ascii "c1 edgex-core-data Up 5 seconds\nc2 edgex-core-data-old Exited (0) 2 hours ago\n"

/-- The arguments of the command line `prog edgex-core-data start`. -/
def argsStartCoreData : List GoString :=
  [ascii "edgex-core-data", ascii "start"]


/-! ## Lemmas on the string functions -/

theorem strings.Index_isSome (s substr : GoString) :
    (strings.Index s substr).isSome = true ↔ substr <:+: s := by
  induction s with
  | nil =>
    by_cases h : substr = [] <;> simp [strings.Index, h]
  | cons c s ih =>
    unfold strings.Index
    by_cases h : substr.isPrefixOf (c :: s) = true
    · simp only [h, if_true, Option.isSome_some, true_iff]
      exact (List.isPrefixOf_iff_prefix.mp h).isInfix
    · have hp : ¬ substr <+: c :: s := fun hp => h (List.isPrefixOf_iff_prefix.mpr hp)
      simp only [h, if_false, Option.isSome_map', ih, List.infix_cons_iff, hp, false_or,
        Bool.false_eq_true]

theorem strings.Contains_iff (s substr : GoString) :
    strings.Contains s substr = true ↔ substr <:+: s :=
  strings.Index_isSome s substr

theorem strings.Contains_eq_false_iff (s substr : GoString) :
    strings.Contains s substr = false ↔ ¬ substr <:+: s := by
  rw [← strings.Contains_iff]; simp


theorem strings.Index_occurs (s substr : GoString) (m : Nat)
    (h : strings.Index s substr = some m) :
    s.take m ++ substr ++ s.drop (m + substr.length) = s := by
  induction s generalizing m with
  | nil =>
    by_cases hs : substr = []
    · simp [hs]
    · simp [strings.Index, hs] at h
  | cons c s ih =>
    unfold strings.Index at h
    by_cases hp : substr.isPrefixOf (c :: s) = true
    · simp only [hp, if_true, Option.some.injEq] at h
      subst h
      simpa using List.prefix_iff_eq_append.mp (List.isPrefixOf_iff_prefix.mp hp)
    · simp only [hp, if_false, Option.map_eq_some', Bool.false_eq_true] at h
      obtain ⟨k, hk, rfl⟩ := h
      have := ih k hk
      have e : k + 1 + substr.length = (k + substr.length) + 1 := by omega
      rw [e]
      simpa using this

theorem strings.Index_first (s substr : GoString) (m : Nat) (hne : substr ≠ [])
    (h : strings.Index s substr = some m) : ¬ substr <:+: s.take m := by
  induction s generalizing m with
  | nil => simpa using hne
  | cons c s ih =>
    unfold strings.Index at h
    by_cases hp : substr.isPrefixOf (c :: s) = true
    · simp only [hp, if_true, Option.some.injEq] at h
      subst h
      simpa using hne
    · simp only [hp, if_false, Option.map_eq_some', Bool.false_eq_true] at h
      obtain ⟨k, hk, rfl⟩ := h
      rw [List.take_succ_cons, List.infix_cons_iff]
      rintro (hpre | hin)
      · apply hp
        exact List.isPrefixOf_iff_prefix.mpr
          (hpre.trans ((List.prefix_cons_inj c).mpr (List.take_prefix k s)))
      · exact ih k hk hin

theorem strings.genSplit_ne_nil (sep : GoString) (n : Nat) (s : GoString) :
    strings.genSplit sep n s ≠ [] := by
  cases n with
  | zero => simp [strings.genSplit]
  | succ n =>
    unfold strings.genSplit
    split <;> simp

theorem intercalate_cons_of_ne_nil (sep a : GoString) (l : List GoString) (h : l ≠ []) :
    sep.intercalate (a :: l) = a ++ sep ++ sep.intercalate l := by
  cases l with
  | nil => exact absurd rfl h
  | cons b l => simp [List.intercalate, List.intersperse]

/-- Joining the pieces of `genSplit` with the separator gives the string back. -/
theorem strings.genSplit_intercalate (sep : GoString) (n : Nat) (s : GoString) :
    sep.intercalate (strings.genSplit sep n s) = s := by
  induction n generalizing s with
  | zero => simp [strings.genSplit, List.intercalate]
  | succ n ih =>
    unfold strings.genSplit
    split
    · simp [List.intercalate]
    · next m hm =>
      rw [intercalate_cons_of_ne_nil _ _ _ (strings.genSplit_ne_nil _ _ _), ih]
      exact strings.Index_occurs s sep m hm

/-- With enough fuel no piece of `genSplit` contains the separator. -/
theorem strings.genSplit_pieces (sep : GoString) (hne : sep ≠ []) (n : Nat) (s : GoString)
    (hn : s.length ≤ n) : ∀ p ∈ strings.genSplit sep n s, ¬ sep <:+: p := by
  induction n generalizing s with
  | zero =>
    have : s = [] := List.length_eq_zero.mp (Nat.le_zero.mp hn)
    subst this
    simpa [strings.genSplit] using hne
  | succ n ih =>
    unfold strings.genSplit
    split
    · next hnone =>
      intro p hp
      simp only [List.mem_singleton] at hp
      subst hp
      rw [← strings.Index_isSome, hnone]
      simp
    · next m hm =>
      intro p hp
      rcases List.mem_cons.mp hp with rfl | hp
      · exact strings.Index_first s sep m hne hm
      · refine ih _ ?_ p hp
        have : 0 < sep.length := List.length_pos.mpr hne
        simp only [List.length_drop]
        omega

/-- The pieces of `Split`, joined with the separator, are the string. -/
theorem strings.Split_intercalate (s sep : GoString) :
    sep.intercalate (strings.Split s sep) = s :=
  strings.genSplit_intercalate sep s.length s

/-- No piece of `Split` contains the (non-empty) separator. -/
theorem strings.Split_pieces (s sep : GoString) (hne : sep ≠ []) :
    ∀ p ∈ strings.Split s sep, ¬ sep <:+: p :=
  strings.genSplit_pieces sep hne s.length s (Nat.le_refl _)

/-! ## Lemmas on the scan of the list output -/

theorem not_firstMatchHas_nil (name state : GoString) : ¬ FirstMatchHas [] name state := by
  rintro ⟨pre, line, post, h, -⟩
  simp at h

theorem firstMatchHas_cons (line : GoString) (rest : List GoString) (name state : GoString) :
    FirstMatchHas (line :: rest) name state ↔
      (name <:+: line ∧ state <:+: line) ∨ (¬ name <:+: line ∧ FirstMatchHas rest name state) := by
  constructor
  · rintro ⟨pre, l, post, h, hpre, hn, hs⟩
    cases pre with
    | nil =>
      simp only [List.nil_append, List.cons.injEq] at h
      obtain ⟨rfl, -⟩ := h
      exact Or.inl ⟨hn, hs⟩
    | cons p pre =>
      simp only [List.cons_append, List.cons.injEq] at h
      obtain ⟨rfl, rfl⟩ := h
      refine Or.inr ⟨hpre _ (List.mem_cons_self _ _), pre, l, post, rfl, ?_, hn, hs⟩
      intro x hx
      exact hpre x (List.mem_cons_of_mem _ hx)
  · rintro (⟨hn, hs⟩ | ⟨hn, pre, l, post, rfl, hpre, hl, hs⟩)
    · exact ⟨[], line, rest, rfl, by simp, hn, hs⟩
    · refine ⟨line :: pre, l, post, rfl, ?_, hl, hs⟩
      intro x hx
      rcases List.mem_cons.mp hx with rfl | hx
      · exact hn
      · exact hpre x hx

theorem firstMatchHas_of_no_match (lines : List GoString) (name state : GoString)
    (h : ∀ l ∈ lines, ¬ name <:+: l) : ¬ FirstMatchHas lines name state := by
  rintro ⟨pre, line, post, rfl, -, hn, -⟩
  exact h line (by simp) hn

theorem firstMatchHas_unique (pre post : List GoString) (line name state : GoString)
    (hpre : ∀ l ∈ pre, ¬ name <:+: l) (hn : name <:+: line) :
    FirstMatchHas (pre ++ line :: post) name state ↔ state <:+: line := by
  induction pre with
  | nil =>
    rw [List.nil_append, firstMatchHas_cons]
    constructor
    · rintro (⟨-, hs⟩ | ⟨h, -⟩)
      · exact hs
      · exact absurd hn h
    · exact fun hs => Or.inl ⟨hn, hs⟩
  | cons p pre ih =>
    have hp : ¬ name <:+: p := hpre p (List.mem_cons_self _ _)
    rw [List.cons_append, firstMatchHas_cons, ih (fun l hl => hpre l (List.mem_cons_of_mem _ hl))]
    constructor
    · rintro (⟨h, -⟩ | ⟨-, hs⟩)
      · exact absurd h hp
      · exact hs
    · exact fun hs => Or.inr ⟨hp, hs⟩

theorem scanLines_fst (service status : GoString) (lines : List GoString) (w : World)
    (hs : status = ascii "Up" ∨ status = ascii "Exited") :
    (scanLines service status lines w).1 = true ↔ FirstMatchHas lines service status := by
  induction lines with
  | nil => simp [scanLines, not_firstMatchHas_nil]
  | cons line rest ih =>
    rw [firstMatchHas_cons, ← ih]
    simp only [scanLines]
    by_cases hc : strings.Contains line service = true
    · have hn : service <:+: line := (strings.Contains_iff _ _).mp hc
      rcases hs with rfl | rfl
      · by_cases hu : strings.Contains line (ascii "Up") = true
        · have := (strings.Contains_iff _ _).mp hu
          simp [hc, hu, hn, this]
        · have : ¬ ascii "Up" <:+: line := fun h => hu ((strings.Contains_iff _ _).mpr h)
          simp [hc, hu, hn, this]
      · have hne : ascii "Exited" ≠ ascii "Up" := by decide
        by_cases hu : strings.Contains line (ascii "Exited") = true
        · have := (strings.Contains_iff _ _).mp hu
          simp [hc, hu, hn, this, hne]
        · have : ¬ ascii "Exited" <:+: line := fun h => hu ((strings.Contains_iff _ _).mpr h)
          simp [hc, hu, hn, this, hne]
    · have hn : ¬ service <:+: line := fun h => hc ((strings.Contains_iff _ _).mpr h)
      simp [hc, hn]

/-- Every line that the scan prints starts with the letter `c` (of `container`). -/
theorem scanLines_snd (service status : GoString) (lines : List GoString) (w : World) :
    ∃ added, (scanLines service status lines w).2 = ⟨w.calls, w.stdout ++ added⟩ ∧
      ∀ l ∈ added, l.head? = some 99 := by
  induction lines with
  | nil => exact ⟨[], by simp [scanLines], by simp⟩
  | cons line rest ih =>
    simp only [scanLines]
    split_ifs
    · exact ⟨_, rfl, by simp [List.intercalate, ascii]⟩
    · exact ⟨_, rfl, by simp [List.intercalate, ascii]⟩
    · exact ⟨_, rfl, by simp [List.intercalate, ascii]⟩
    · exact ⟨_, rfl, by simp [List.intercalate, ascii]⟩
    · exact ih
    · exact ih


/-! ## Lemmas on the effectful functions -/

theorem findDockerContainerStatus_ok (rt : Runtime) (service status out : GoString)
    (w : World) (hps : rt w.calls psCommand = ⟨out, none⟩) :
    findDockerContainerStatus rt service status w =
      .ret (scanLines service status (outputLines out) ⟨w.calls ++ [psCommand], w.stdout⟩).1
        (scanLines service status (outputLines out) ⟨w.calls ++ [psCommand], w.stdout⟩).2 := by
  simp [findDockerContainerStatus, exec, hps]

theorem findDockerContainerStatus_err (rt : Runtime) (service status : GoString)
    (w : World) (e : ExecErr) (hps : (rt w.calls psCommand).err = some e) :
    findDockerContainerStatus rt service status w =
      .exit 1 ⟨w.calls ++ [psCommand], w.stdout ++
        [ascii "error running the docker command error message " ++ e.Error ++ ascii "\n"]⟩ := by
  simp [findDockerContainerStatus, exec, hps, Println, List.intercalate, ascii]

theorem verify_ok (rt : Runtime) (service status failed out : GoString) (w : World)
    (hs : status = ascii "Up" ∨ status = ascii "Exited") (hf : failed.head? = some 100)
    (hps : rt w.calls psCommand = ⟨out, none⟩) :
    ∃ added, verify rt service status failed w =
        .ret () ⟨w.calls ++ [psCommand], w.stdout ++ added⟩ ∧
      (failed ++ ascii " service name " ++ service ++ ascii "\n" ∈ added ↔
        ¬ FirstMatchHas (outputLines out) service status) := by
  obtain ⟨added, hw, hadd⟩ :=
    scanLines_snd service status (outputLines out) ⟨w.calls ++ [psCommand], w.stdout⟩
  have hfst := scanLines_fst service status (outputLines out)
    ⟨w.calls ++ [psCommand], w.stdout⟩ hs
  have hnot : failed ++ ascii " service name " ++ service ++ ascii "\n" ∉ added := by
    intro hmem
    have h1 := hadd _ hmem
    cases failed with
    | nil => simp at hf
    | cons c t =>
      simp only [List.head?_cons, Option.some.injEq] at hf
      subst hf
      simp at h1
  rw [verify, findDockerContainerStatus_ok rt service status out w hps]
  cases hb : (scanLines service status (outputLines out) ⟨w.calls ++ [psCommand], w.stdout⟩).1
  · refine ⟨added ++ [failed ++ ascii " service name " ++ service ++ ascii "\n"], ?_, ?_⟩
    · simp [hw, Println, List.intercalate, ascii]
    · have : ¬ FirstMatchHas (outputLines out) service status := by
        rw [← hfst, hb]; simp
      simp [this]
  · refine ⟨added, ?_, ?_⟩
    · simp [hw]
    · have : FirstMatchHas (outputLines out) service status := hfst.mp hb
      simpa [this] using hnot

theorem verify_err (rt : Runtime) (service status failed : GoString) (w : World)
    (e : ExecErr) (hps : (rt w.calls psCommand).err = some e) :
    verify rt service status failed w =
      .exit 1 ⟨w.calls ++ [psCommand], w.stdout ++
        [ascii "error running the docker command error message " ++ e.Error ++ ascii "\n"]⟩ := by
  rw [verify, findDockerContainerStatus_err rt service status w e hps]


theorem lookup_eq_none_iff_not_key (key : GoString) (table : List (GoString × GoString)) :
    table.lookup key = none ↔ key ∉ table.map Prod.fst := by
  induction table with
  | nil => simp
  | cons p t ih =>
    obtain ⟨a, b⟩ := p
    by_cases h : key = a
    · subst h
      simp [List.lookup]
    · have hb : (key == a) = false := by simpa using h
      simp [List.lookup, hb, ih, h]

theorem services_eq_none_iff (key : GoString) :
    services key = none ↔ key ∉ servicesTable.map Prod.fst :=
  lookup_eq_none_iff_not_key key servicesTable

theorem runDockerCommands_fail (rt : Runtime) (service dockerService operation : GoString)
    (w : World) (e : ExecErr)
    (hact : (rt w.calls (actionCommand operation dockerService)).err = some e) :
    runDockerCommands rt service dockerService operation w =
      .ret () ⟨w.calls ++ [actionCommand operation dockerService], w.stdout ++
        [ascii "docker command failed error message " ++ e.Error ++ ascii "\n",
         ascii "associated output error message " ++
           (rt w.calls (actionCommand operation dockerService)).out ++ ascii "\n"]⟩ := by
  simp [runDockerCommands, exec, hact, Println, List.intercalate, ascii]

theorem runDockerCommands_ok (rt : Runtime) (service dockerService operation : GoString)
    (w : World) (hact : (rt w.calls (actionCommand operation dockerService)).err = none)
    (hop : operation = START ∨ operation = STOP ∨ operation = RESTART) :
    runDockerCommands rt service dockerService operation w =
      verify rt service (expectedState operation)
        (ascii "docker " ++ operation ++ ascii " operation failed")
        ⟨w.calls ++ [actionCommand operation dockerService], w.stdout⟩ := by
  rcases hop with rfl | rfl | rfl
  · have e1 : expectedState START = ascii "Up" := by decide
    have e2 : ascii "docker " ++ START ++ ascii " operation failed" =
        ascii "docker start operation failed" := by decide
    simp only [runDockerCommands, exec, hact]
    rw [if_pos (by decide : START = ascii "start"), e1, e2]
  · have e1 : expectedState STOP = ascii "Exited" := by decide
    have e2 : ascii "docker " ++ STOP ++ ascii " operation failed" =
        ascii "docker stop operation failed" := by decide
    simp only [runDockerCommands, exec, hact]
    rw [if_neg (by decide : ¬ STOP = ascii "start"), if_pos (by decide : STOP = ascii "stop"),
      e1, e2]
  · have e1 : expectedState RESTART = ascii "Up" := by decide
    have e2 : ascii "docker " ++ RESTART ++ ascii " operation failed" =
        ascii "docker restart operation failed" := by decide
    simp only [runDockerCommands, exec, hact]
    rw [if_neg (by decide : ¬ RESTART = ascii "start"),
      if_neg (by decide : ¬ RESTART = ascii "stop"),
      if_pos (by decide : RESTART = ascii "restart"), e1, e2]

theorem runDockerCommands_other (rt : Runtime) (service dockerService operation : GoString)
    (w : World) (hact : (rt w.calls (actionCommand operation dockerService)).err = none)
    (hop : ¬ (operation = START ∨ operation = STOP ∨ operation = RESTART)) :
    runDockerCommands rt service dockerService operation w =
      .ret () ⟨w.calls ++ [actionCommand operation dockerService], w.stdout⟩ := by
  simp only [not_or, START, STOP, RESTART] at hop
  simp [runDockerCommands, exec, hact, hop.1, hop.2.1, hop.2.2]

theorem expectedState_cases (operation : GoString) :
    expectedState operation = ascii "Up" ∨ expectedState operation = ascii "Exited" := by
  unfold expectedState
  split_ifs
  · exact Or.inr rfl
  · exact Or.inl rfl


theorem execute_unknown (rt : Runtime) (service operation : GoString) (w : World)
    (hreg : services service = none) :
    ExecuteDockerCommands rt service operation w =
      .ret (some (ascii "unknown service: " ++ service))
        ⟨w.calls, w.stdout ++ [ascii "unknown service: " ++ service ++ ascii "\n"]⟩ := by
  simp [ExecuteDockerCommands, hreg, Println, List.intercalate]

theorem execute_fail (rt : Runtime) (service name operation : GoString) (w : World)
    (e : ExecErr) (hreg : services service = some name)
    (hact : (rt w.calls (actionCommand operation name)).err = some e) :
    ExecuteDockerCommands rt service operation w =
      .ret none ⟨w.calls ++ [actionCommand operation name], w.stdout ++
        [ascii "docker command failed error message " ++ e.Error ++ ascii "\n",
         ascii "associated output error message " ++
           (rt w.calls (actionCommand operation name)).out ++ ascii "\n"]⟩ := by
  simp only [ExecuteDockerCommands, hreg]
  rw [runDockerCommands_fail rt service name operation w e hact]

theorem execute_other (rt : Runtime) (service name operation : GoString) (w : World)
    (hreg : services service = some name)
    (hact : (rt w.calls (actionCommand operation name)).err = none)
    (hop : ¬ (operation = START ∨ operation = STOP ∨ operation = RESTART)) :
    ExecuteDockerCommands rt service operation w =
      .ret none ⟨w.calls ++ [actionCommand operation name], w.stdout⟩ := by
  simp only [ExecuteDockerCommands, hreg]
  rw [runDockerCommands_other rt service name operation w hact hop]

theorem execute_list_err (rt : Runtime) (service name operation : GoString) (w : World)
    (e : ExecErr) (hreg : services service = some name)
    (hop : operation = START ∨ operation = STOP ∨ operation = RESTART)
    (hact : (rt w.calls (actionCommand operation name)).err = none)
    (hps : (rt (w.calls ++ [actionCommand operation name]) psCommand).err = some e) :
    ExecuteDockerCommands rt service operation w =
      .exit 1 ⟨w.calls ++ [actionCommand operation name, psCommand], w.stdout ++
        [ascii "error running the docker command error message " ++ e.Error ++ ascii "\n"]⟩ := by
  simp only [ExecuteDockerCommands, hreg]
  rw [runDockerCommands_ok rt service name operation w hact hop,
    verify_err rt service _ _ ⟨w.calls ++ [actionCommand operation name], w.stdout⟩ e hps]
  simp

theorem failureLine_eq (operation service : GoString) :
    ascii "docker " ++ operation ++ ascii " operation failed" ++ ascii " service name " ++
      service ++ ascii "\n" = failureLine operation service := by
  have : ascii " operation failed" ++ ascii " service name " =
      ascii " operation failed service name " := by decide
  simp only [failureLine, List.append_assoc]
  rw [← List.append_assoc (ascii " operation failed"), this]

theorem execute_verified (rt : Runtime) (service name operation out : GoString) (w : World)
    (hreg : services service = some name)
    (hop : operation = START ∨ operation = STOP ∨ operation = RESTART)
    (hact : (rt w.calls (actionCommand operation name)).err = none)
    (hps : rt (w.calls ++ [actionCommand operation name]) psCommand = ⟨out, none⟩) :
    ∃ added, ExecuteDockerCommands rt service operation w =
        .ret none ⟨w.calls ++ [actionCommand operation name, psCommand], w.stdout ++ added⟩ ∧
      (failureLine operation service ∈ added ↔
        ¬ FirstMatchHas (outputLines out) service (expectedState operation)) := by
  have hf : (ascii "docker " ++ operation ++ ascii " operation failed").head? = some 100 := by
    simp [ascii]
  obtain ⟨added, hv, hiff⟩ := verify_ok rt service (expectedState operation)
    (ascii "docker " ++ operation ++ ascii " operation failed") out
    ⟨w.calls ++ [actionCommand operation name], w.stdout⟩ (expectedState_cases operation) hf hps
  refine ⟨added, ?_, ?_⟩
  · simp only [ExecuteDockerCommands, hreg]
    rw [runDockerCommands_ok rt service name operation w hact hop, hv]
    simp
  · rw [← hiff, failureLine_eq]


theorem dispatch_cases (rt : Runtime) (p service operation : GoString)
    (rest : List GoString) (w : World) :
    (operation = START → dispatch rt (p :: service :: operation :: rest) w =
      report (ExecuteDockerCommands rt service operation w)
        (ascii "error starting service: ") service) ∧
    (operation = STOP → dispatch rt (p :: service :: operation :: rest) w =
      report (ExecuteDockerCommands rt service operation w)
        (ascii "error stopping service: ") service) ∧
    (operation = RESTART → dispatch rt (p :: service :: operation :: rest) w =
      report (ExecuteDockerCommands rt service operation w)
        (ascii "error restarting service: ") service) ∧
    (¬ (operation = START ∨ operation = STOP ∨ operation = RESTART) →
      dispatch rt (p :: service :: operation :: rest) w =
        .ret () ⟨w.calls, w.stdout ++
          [ascii "unknown operation was requested:  " ++ operation ++ ascii "\n"]⟩) := by
  refine ⟨?_, ?_, ?_, ?_⟩
  · rintro rfl
    simp only [dispatch, if_true]
    rfl
  · rintro rfl
    simp only [dispatch, if_neg (by decide : ¬ STOP = START), if_true]
    rfl
  · rintro rfl
    simp only [dispatch, if_neg (by decide : ¬ RESTART = START),
      if_neg (by decide : ¬ RESTART = STOP), if_true]
    rfl
  · intro hop
    simp only [not_or] at hop
    simp only [dispatch, if_neg hop.1, if_neg hop.2.1, if_neg hop.2.2]
    have : ascii "unknown operation was requested: " ++ ascii " " =
        ascii "unknown operation was requested:  " := by decide
    simp [Println, List.intercalate, ← this]

theorem dispatch_short (rt : Runtime) (osArgs : List GoString) (w : World)
    (h : osArgs.length ≤ 2) : dispatch rt osArgs w = .ret () w := by
  match osArgs, h with
  | [], _ => rfl
  | [_], _ => rfl
  | [_, _], _ => rfl
  | _ :: _ :: _ :: _, h => simp at h

theorem banner_calls (elapsed : GoString) (w : World) : (banner elapsed w).calls = w.calls :=
  rfl

theorem main_of_flag (rt : Runtime) (elapsed prog service : GoString) (rest : List GoString)
    (w : World) (h : flag.isFlag service = true) :
    main rt elapsed prog (service :: rest) w = HelpCallback prog w := by
  simp [main, flag.parseCallsUsage, h]

theorem main_of_not_flag (rt : Runtime) (elapsed prog service : GoString)
    (rest : List GoString) (w : World) (h : flag.isFlag service = false) :
    main rt elapsed prog (service :: rest) w =
      dispatch rt (prog :: service :: rest) (banner elapsed w) := by
  simp [main, flag.parseCallsUsage, h]

theorem main_nil (rt : Runtime) (elapsed prog : GoString) (w : World) :
    main rt elapsed prog [] w = .ret () (banner elapsed w) := by
  simp [main, flag.parseCallsUsage, dispatch]

theorem lookup_some_key (key value : GoString) (table : List (GoString × GoString))
    (h : table.lookup key = some value) : key ∈ table.map Prod.fst := by
  by_contra hk
  rw [(lookup_eq_none_iff_not_key key table).mpr hk] at h
  simp at h

/-- No key of the service table is taken for a flag. -/
theorem registered_not_flag (service name : GoString) (h : services service = some name) :
    flag.isFlag service = false := by
  have hk := lookup_some_key service name servicesTable h
  simp only [servicesTable, List.map_cons, List.map_nil, List.mem_cons, List.mem_singleton,
    List.not_mem_nil, or_false] at hk
  rcases hk with rfl | rfl | rfl | rfl | rfl | rfl | rfl | rfl <;> decide

theorem execute_calls (rt : Runtime) (service name operation : GoString)
    (w : World) (hreg : services service = some name) :
    (ExecuteDockerCommands rt service operation w).world.calls =
      w.calls ++ actionCommand operation name ::
        (if (rt w.calls (actionCommand operation name)).err = none ∧
            (operation = START ∨ operation = STOP ∨ operation = RESTART)
         then [psCommand] else []) := by
  cases hact : (rt w.calls (actionCommand operation name)).err with
  | some e =>
    rw [execute_fail rt service name operation w e hreg hact]
    simp [Res.world]
  | none =>
    by_cases hop : operation = START ∨ operation = STOP ∨ operation = RESTART
    · cases hps : (rt (w.calls ++ [actionCommand operation name]) psCommand).err with
      | some e =>
        rw [execute_list_err rt service name operation w e hreg hop hact hps]
        simp [Res.world, hop]
      | none =>
        have hps2 : rt (w.calls ++ [actionCommand operation name]) psCommand =
            ⟨(rt (w.calls ++ [actionCommand operation name]) psCommand).out, none⟩ := by
          rw [← hps]
        obtain ⟨added, hE, -⟩ := execute_verified rt service name operation _ w hreg hop hact hps2
        rw [hE]
        simp [Res.world, hop]
    · rw [execute_other rt service name operation w hreg hact hop]
      simp [Res.world, hop]

theorem execute_ret_error (rt : Runtime) (service operation : GoString) (w : World)
    (e : Option GoString) (w1 : World)
    (h : ExecuteDockerCommands rt service operation w = .ret e w1) :
    e ≠ none ↔ services service = none := by
  cases hreg : services service with
  | none =>
    rw [execute_unknown rt service operation w hreg] at h
    simp only [Res.ret.injEq] at h
    simp [← h.1]
  | some name =>
    simp only [ExecuteDockerCommands, hreg] at h
    cases hr : runDockerCommands rt service name operation w with
    | ret u w2 =>
      rw [hr] at h
      simp only [Res.ret.injEq] at h
      simp [← h.1]
    | exit c w2 =>
      rw [hr] at h
      simp at h

theorem execute_returns (rt : Runtime) (service operation : GoString) (w : World)
    (hlist : ∀ hist, (rt hist psCommand).err = none) :
    ∃ e w1, ExecuteDockerCommands rt service operation w = .ret e w1 := by
  cases hreg : services service with
  | none => exact ⟨_, _, execute_unknown rt service operation w hreg⟩
  | some name =>
    cases hact : (rt w.calls (actionCommand operation name)).err with
    | some e => exact ⟨_, _, execute_fail rt service name operation w e hreg hact⟩
    | none =>
      by_cases hop : operation = START ∨ operation = STOP ∨ operation = RESTART
      · have hps2 : rt (w.calls ++ [actionCommand operation name]) psCommand =
            ⟨(rt (w.calls ++ [actionCommand operation name]) psCommand).out, none⟩ := by
          rw [← hlist (w.calls ++ [actionCommand operation name])]
        obtain ⟨added, hE, -⟩ := execute_verified rt service name operation _ w hreg hop hact hps2
        exact ⟨_, _, hE⟩
      · exact ⟨_, _, execute_other rt service name operation w hreg hact hop⟩

theorem report_ret (e : Option GoString) (w : World) (msg service : GoString) :
    ∃ w1, report (.ret e w) msg service = .ret () w1 := by
  cases e with
  | none => exact ⟨_, rfl⟩
  | some _ => exact ⟨_, rfl⟩

theorem report_world (r : Res (Option GoString)) (msg service : GoString)
    (h : ∀ e w1, r = .ret e w1 → e = none) : (report r msg service).world = r.world := by
  cases r with
  | exit c w => rfl
  | ret e w =>
    have := h e w rfl
    subst this
    rfl

/-! ## The claims -/

/-- C1: the scan of `findDockerContainerStatus` is decided by the first line
that contains the name. For an expected state `"Up"` or `"Exited"` and a
`docker ps` that returns `out` without error, the function returns, and its
result is true if and only if some line of `out` (one trailing newline
removed, split at newlines) contains the name and the first such line
contains the state. Whatever comes after the first matching line, the
result is whether that line contains the state; the result is false when no
line contains the name. -/
theorem findDockerContainerStatus_first_match (rt : Runtime)
    (service status out : GoString) (w : World)
    (hs : status = ascii "Up" ∨ status = ascii "Exited")
    (hps : rt w.calls psCommand = ⟨out, none⟩) :
    ∃ found w1, findDockerContainerStatus rt service status w = .ret found w1 ∧
      (found = true ↔ FirstMatchHas (outputLines out) service status) ∧
      (∀ pre line post, outputLines out = pre ++ line :: post →
        (∀ l ∈ pre, ¬ service <:+: l) → service <:+: line →
          (found = true ↔ status <:+: line)) ∧
      ((∀ l ∈ outputLines out, ¬ service <:+: l) → found = false) := by
  refine ⟨_, _, findDockerContainerStatus_ok rt service status out w hps, ?_, ?_, ?_⟩
  · exact scanLines_fst service status _ _ hs
  · intro pre line post hl hpre hn
    rw [scanLines_fst service status _ _ hs, hl]
    exact firstMatchHas_unique pre post line service status hpre hn
  · intro hno
    have := firstMatchHas_of_no_match _ service status hno
    rw [← scanLines_fst service status (outputLines out)
      ⟨w.calls ++ [psCommand], w.stdout⟩ hs] at this
    simpa using this

/-- Witness of C1: with two lines naming `edgex-core-data`, the first one up and
the second one exited, the check for `"Up"` is decided by the first line. -/
theorem findDockerContainerStatus_first_match_witness :
    (ascii "Up" = ascii "Up" ∨ ascii "Up" = ascii "Exited") ∧
    fixedRuntime ⟨[], none⟩ ⟨listTwoLines, none⟩ World.init.calls psCommand =
      ⟨listTwoLines, none⟩ ∧
    ∃ found w1, findDockerContainerStatus (fixedRuntime ⟨[], none⟩ ⟨listTwoLines, none⟩)
        CoreDataServiceKey (ascii "Up") World.init = .ret found w1 ∧
      (found = true ↔ FirstMatchHas (outputLines listTwoLines) CoreDataServiceKey (ascii "Up")) ∧
      (∀ pre line post, outputLines listTwoLines = pre ++ line :: post →
        (∀ l ∈ pre, ¬ CoreDataServiceKey <:+: l) → CoreDataServiceKey <:+: line →
          (found = true ↔ ascii "Up" <:+: line)) ∧
      ((∀ l ∈ outputLines listTwoLines, ¬ CoreDataServiceKey <:+: l) → found = false) :=
  ⟨Or.inl rfl, by decide,
    findDockerContainerStatus_first_match (fixedRuntime ⟨[], none⟩ ⟨listTwoLines, none⟩)
      CoreDataServiceKey (ascii "Up") listTwoLines World.init (Or.inl rfl) (by decide)⟩

/-- C3: a service key that is not a key of the `services` table is rejected
before any runtime command: `ExecuteDockerCommands` (and `Start`, `Stop`,
`Restart`) returns the error `unknown service: <key>`, prints it, and the list
of subprocess invocations is unchanged. -/
theorem unknown_service_rejected (rt : Runtime) (service operation : GoString) (w : World)
    (hkey : service ∉ servicesTable.map Prod.fst) :
    ExecuteDockerCommands rt service operation w =
      .ret (some (ascii "unknown service: " ++ service))
        ⟨w.calls, w.stdout ++ [ascii "unknown service: " ++ service ++ ascii "\n"]⟩ ∧
    (ExecuteDockerCommands rt service operation w).world.calls = w.calls ∧
    (Start rt service w).world.calls = w.calls ∧
    (Stop rt service w).world.calls = w.calls ∧
    (Restart rt service w).world.calls = w.calls ∧
    (∃ w1, Start rt service w = .ret (some (ascii "unknown service: " ++ service)) w1) ∧
    (∃ w1, Stop rt service w = .ret (some (ascii "unknown service: " ++ service)) w1) ∧
    (∃ w1, Restart rt service w = .ret (some (ascii "unknown service: " ++ service)) w1) := by
  have hreg : services service = none := (services_eq_none_iff service).mpr hkey
  have h := fun op => execute_unknown rt service op w hreg
  refine ⟨h operation, ?_, ?_, ?_, ?_, ⟨_, h _⟩, ⟨_, h _⟩, ⟨_, h _⟩⟩
  · rw [h operation]; rfl
  · rw [Start, h]; rfl
  · rw [Stop, h]; rfl
  · rw [Restart, h]; rfl

/-- Witness of C3: the key `not-a-real-service` with the operation `start`, no
invocation having been made before. -/
theorem unknown_service_rejected_witness :
    ascii "not-a-real-service" ∉ servicesTable.map Prod.fst ∧
    (ExecuteDockerCommands (fixedRuntime ⟨[], none⟩ ⟨listCoreDataUp, none⟩)
      (ascii "not-a-real-service") (ascii "start") World.init).world.calls = [] :=
  ⟨by decide,
    (unknown_service_rejected (fixedRuntime ⟨[], none⟩ ⟨listCoreDataUp, none⟩)
      (ascii "not-a-real-service") (ascii "start") World.init (by decide)).2.1⟩

/-- C5: a failed action command short-circuits the verification. For a
registered service key and any operation, when the action command returns an
error (a non-zero exit in particular), `ExecuteDockerCommands` returns nil
after exactly one subprocess invocation, the action command, which is not the
list command, and prints `docker command failed` with the error message, then
`associated output` with the captured combined output, verbatim. -/
theorem command_failure_short_circuits (rt : Runtime) (service name operation : GoString)
    (w : World) (e : ExecErr) (hreg : services service = some name)
    (hact : (rt w.calls (actionCommand operation name)).err = some e) :
    ExecuteDockerCommands rt service operation w =
      .ret none ⟨w.calls ++ [actionCommand operation name], w.stdout ++
        [ascii "docker command failed error message " ++ e.Error ++ ascii "\n",
         ascii "associated output error message " ++
           (rt w.calls (actionCommand operation name)).out ++ ascii "\n"]⟩ ∧
    actionCommand operation name ≠ psCommand := by
  refine ⟨execute_fail rt service name operation w e hreg hact, ?_⟩
  simp [actionCommand, psCommand]

/-- Witness of C5: `docker stop CoreData` exits with status 1 after writing a
diagnostic. -/
theorem command_failure_short_circuits_witness :
    services CoreDataServiceKey = some (ascii "CoreData") ∧
    (fixedRuntime ⟨ascii "Error response from daemon\n", some (.exitError (ascii "exit status 1"))⟩
      ⟨listCoreDataUp, none⟩ World.init.calls (actionCommand STOP (ascii "CoreData"))).err =
        some (.exitError (ascii "exit status 1")) ∧
    ExecuteDockerCommands
      (fixedRuntime ⟨ascii "Error response from daemon\n", some (.exitError (ascii "exit status 1"))⟩
        ⟨listCoreDataUp, none⟩) CoreDataServiceKey STOP World.init =
      .ret none ⟨[actionCommand STOP (ascii "CoreData")],
        [ascii "docker command failed error message exit status 1\n",
         ascii "associated output error message Error response from daemon\n\n"]⟩ :=
  ⟨by decide, by decide,
    (command_failure_short_circuits
      (fixedRuntime ⟨ascii "Error response from daemon\n", some (.exitError (ascii "exit status 1"))⟩
        ⟨listCoreDataUp, none⟩) CoreDataServiceKey (ascii "CoreData") STOP World.init
      (.exitError (ascii "exit status 1")) (by decide) (by decide)).1⟩

/-- C6: an unknown operation performs no action. When `os.Args` has more than
two elements and `os.Args[2]` is none of `start`, `stop`, `restart`, the
dispatch in `main`, reached when `flag.Parse` does not take `os.Args[1]` for a
flag, prints `unknown operation was requested:  <operation>` after the banner
and returns; whatever the service key, flag or not, no subprocess is invoked.
With fewer than two arguments after the program name no subprocess is invoked
either. -/
theorem unknown_operation_no_action (rt : Runtime) (elapsed prog : GoString) (w : World) :
    (∀ service operation rest,
      ¬ (operation = START ∨ operation = STOP ∨ operation = RESTART) →
        (flag.isFlag service = false →
          main rt elapsed prog (service :: operation :: rest) w =
            .ret () ⟨w.calls, (banner elapsed w).stdout ++
              [ascii "unknown operation was requested:  " ++ operation ++ ascii "\n"]⟩) ∧
        (main rt elapsed prog (service :: operation :: rest) w).world.calls = w.calls) ∧
    (∀ args, args.length ≤ 1 → (main rt elapsed prog args w).world.calls = w.calls) := by
  constructor
  · intro service operation rest hop
    have hd := (dispatch_cases rt prog service operation rest (banner elapsed w)).2.2.2 hop
    constructor
    · intro hf
      rw [main_of_not_flag rt elapsed prog service _ w hf, hd]
      rfl
    · cases hf : flag.isFlag service with
      | true => rw [main_of_flag rt elapsed prog service _ w hf]; rfl
      | false => rw [main_of_not_flag rt elapsed prog service _ w hf, hd]; rfl
  · intro args hlen
    match args, hlen with
    | [], _ => rw [main_nil]; rfl
    | [s], _ =>
      cases hf : flag.isFlag s with
      | true => rw [main_of_flag rt elapsed prog s _ w hf]; rfl
      | false => rw [main_of_not_flag rt elapsed prog s _ w hf]; rfl
    | _ :: _ :: _, h => simp at h

/-- Witness of C6: `prog edgex-core-data pause` only prints the banner and the
message, and `prog edgex-core-data` invokes nothing. -/
theorem unknown_operation_no_action_witness :
    main (fixedRuntime ⟨[], none⟩ ⟨listCoreDataUp, none⟩) (ascii "1ms") (ascii "prog")
      [ascii "edgex-core-data", ascii "pause"] World.init =
        .ret () ⟨[], [ascii "Starting the docker-compose-executor application...\n",
          ascii "This is the docker-compose-executor application!\n",
          ascii "Application started in: 1ms\n",
          ascii "unknown operation was requested:  pause\n"]⟩ ∧
    (main (fixedRuntime ⟨[], none⟩ ⟨listCoreDataUp, none⟩) (ascii "1ms") (ascii "prog")
      [ascii "edgex-core-data"] World.init).world.calls = [] :=
  ⟨((unknown_operation_no_action (fixedRuntime ⟨[], none⟩ ⟨listCoreDataUp, none⟩)
      (ascii "1ms") (ascii "prog") World.init).1 (ascii "edgex-core-data") (ascii "pause") []
        (by decide)).1 (by decide),
   (unknown_operation_no_action (fixedRuntime ⟨[], none⟩ ⟨listCoreDataUp, none⟩)
      (ascii "1ms") (ascii "prog") World.init).2 [ascii "edgex-core-data"] (by decide)⟩

/-- C10: `ExecuteDockerCommands` does not validate the operation string. For a
registered service key and any operation string, the subprocess invocations
are the action command with the arguments `[operation, containerName]`,
followed by the list command exactly when the action command returned no
error and the operation is one of `start`, `stop`, `restart`. For any other
operation whose command succeeds, that single invocation is all that happens:
nothing is printed and nil is returned. -/
theorem operation_not_validated (rt : Runtime) (service name operation : GoString)
    (w : World) (hreg : services service = some name) :
    (ExecuteDockerCommands rt service operation w).world.calls =
      w.calls ++ ⟨ascii "docker", [operation, name], .CombinedOutput⟩ ::
        (if (rt w.calls (actionCommand operation name)).err = none ∧
            (operation = START ∨ operation = STOP ∨ operation = RESTART)
         then [psCommand] else []) ∧
    (¬ (operation = START ∨ operation = STOP ∨ operation = RESTART) →
      (rt w.calls (actionCommand operation name)).err = none →
      ExecuteDockerCommands rt service operation w =
        .ret none ⟨w.calls ++ [actionCommand operation name], w.stdout⟩) := by
  exact ⟨execute_calls rt service name operation w hreg,
    fun hop hact => execute_other rt service name operation w hreg hact hop⟩

/-- Witness of C10: `pause` on `edgex-core-data` runs `docker pause CoreData`
and nothing else. -/
theorem operation_not_validated_witness :
    services CoreDataServiceKey = some (ascii "CoreData") ∧
    (ExecuteDockerCommands (fixedRuntime ⟨[], none⟩ ⟨listCoreDataUp, none⟩)
      CoreDataServiceKey (ascii "pause") World.init).world.calls =
        [⟨ascii "docker", [ascii "pause", ascii "CoreData"], .CombinedOutput⟩] :=
  ⟨by decide,
    (operation_not_validated (fixedRuntime ⟨[], none⟩ ⟨listCoreDataUp, none⟩)
      CoreDataServiceKey (ascii "CoreData") (ascii "pause") World.init (by decide)).1⟩

/-- Counterexample to C2 as stated (Scenario A): for `edgex-core-data` and
`start`, with the action command exiting 0 and a list output whose line
`CoreData ... Up 5 seconds` names the registry's container, the check of
the container name `CoreData` for `"Up"` is true, yet the program reports
`docker start operation failed`: the list output is searched for the service
key, which no line contains. -/
theorem scenarioA_reports_failure :
    services CoreDataServiceKey = some (ascii "CoreData") ∧
    (scanLines (ascii "CoreData") (ascii "Up") (outputLines listCoreDataUp) World.init).1
      = true ∧
    ExecuteDockerCommands (fixedRuntime ⟨[], none⟩ ⟨listCoreDataUp, none⟩)
      CoreDataServiceKey (ascii "start") World.init =
      .ret none ⟨[actionCommand (ascii "start") (ascii "CoreData"), psCommand],
        [ascii "docker start operation failed service name edgex-core-data\n"]⟩ := by
  decide

/-- C2, amended: for a registered service key and an operation among `start`,
`stop`, `restart`, when the action command and the list command return no
error, `ExecuteDockerCommands` checks the list output for the service key
itself (not for the registry's container name) and the state of the operation
(`"Up"` for `start` and `restart`, `"Exited"` for `stop`): it returns nil after
the two invocations, and the line `docker <operation> operation failed service
name <key>` is printed if and only if it is not the case that some line
contains the service key and the first such line contains the state. -/
theorem execute_verifies_service_key (rt : Runtime) (service name operation out : GoString)
    (w : World) (hreg : services service = some name)
    (hop : operation = START ∨ operation = STOP ∨ operation = RESTART)
    (hact : (rt w.calls (actionCommand operation name)).err = none)
    (hps : rt (w.calls ++ [actionCommand operation name]) psCommand = ⟨out, none⟩) :
    (∃ added, ExecuteDockerCommands rt service operation w =
        .ret none ⟨w.calls ++ [actionCommand operation name, psCommand], w.stdout ++ added⟩ ∧
      (failureLine operation service ∈ added ↔
        ¬ FirstMatchHas (outputLines out) service (expectedState operation))) ∧
    expectedState START = ascii "Up" ∧ expectedState STOP = ascii "Exited" ∧
    expectedState RESTART = ascii "Up" :=
  ⟨execute_verified rt service name operation out w hreg hop hact hps,
    by decide, by decide, by decide⟩

/-- Witness of C2, amended: `start` on `edgex-core-data` with a list output whose
first line naming the key is up. -/
theorem execute_verifies_service_key_witness :
    services CoreDataServiceKey = some (ascii "CoreData") ∧
    (START = START ∨ START = STOP ∨ START = RESTART) ∧
    (fixedRuntime ⟨[], none⟩ ⟨listTwoLines, none⟩ World.init.calls
      (actionCommand START (ascii "CoreData"))).err = none ∧
    fixedRuntime ⟨[], none⟩ ⟨listTwoLines, none⟩
      (World.init.calls ++ [actionCommand START (ascii "CoreData")]) psCommand =
        ⟨listTwoLines, none⟩ ∧
    ∃ added, ExecuteDockerCommands (fixedRuntime ⟨[], none⟩ ⟨listTwoLines, none⟩)
        CoreDataServiceKey START World.init =
        .ret none ⟨World.init.calls ++ [actionCommand START (ascii "CoreData"), psCommand],
          World.init.stdout ++ added⟩ ∧
      (failureLine START CoreDataServiceKey ∈ added ↔
        ¬ FirstMatchHas (outputLines listTwoLines) CoreDataServiceKey (expectedState START)) :=
  ⟨by decide, Or.inl rfl, by decide, by decide,
    (execute_verifies_service_key (fixedRuntime ⟨[], none⟩ ⟨listTwoLines, none⟩)
      CoreDataServiceKey (ascii "CoreData") START listTwoLines World.init
      (by decide) (Or.inl rfl) (by decide) (by decide)).1⟩

/-- C4: the operation mapping is total and fixed. For each of the three
methods with its verb and state, `Start` with `start` and `"Up"`, `Stop` with
`stop` and `"Exited"`, `Restart` with `restart` and `"Up"`, and for a
registered service key: the first subprocess invocation is `docker <verb>
<containerName>` with the registry's container name, followed by the list
command exactly when it returned no error; and when both return no error the
method returns nil, the failure line being printed if and only if the first
line of the list output that contains the key does not contain the state (or
no line contains the key). -/
theorem operation_mapping (rt : Runtime) (service name : GoString) (w : World)
    (method : Runtime → GoString → World → Res (Option GoString)) (verb state : GoString)
    (hm : (method = Start ∧ verb = ascii "start" ∧ state = ascii "Up") ∨
      (method = Stop ∧ verb = ascii "stop" ∧ state = ascii "Exited") ∨
      (method = Restart ∧ verb = ascii "restart" ∧ state = ascii "Up"))
    (hreg : services service = some name) :
    (method rt service w).world.calls =
      w.calls ++ ⟨ascii "docker", [verb, name], .CombinedOutput⟩ ::
        (if (rt w.calls (actionCommand verb name)).err = none then [psCommand] else []) ∧
    ∀ out, (rt w.calls (actionCommand verb name)).err = none →
      rt (w.calls ++ [actionCommand verb name]) psCommand = ⟨out, none⟩ →
      ∃ added, method rt service w =
          .ret none ⟨w.calls ++ [actionCommand verb name, psCommand], w.stdout ++ added⟩ ∧
        (failureLine verb service ∈ added ↔
          ¬ FirstMatchHas (outputLines out) service state) := by
  have key : ∀ op : GoString, (op = START ∨ op = STOP ∨ op = RESTART) →
      (ExecuteDockerCommands rt service op w).world.calls =
        w.calls ++ ⟨ascii "docker", [op, name], .CombinedOutput⟩ ::
          (if (rt w.calls (actionCommand op name)).err = none then [psCommand] else []) ∧
      ∀ out, (rt w.calls (actionCommand op name)).err = none →
        rt (w.calls ++ [actionCommand op name]) psCommand = ⟨out, none⟩ →
        ∃ added, ExecuteDockerCommands rt service op w =
            .ret none ⟨w.calls ++ [actionCommand op name, psCommand], w.stdout ++ added⟩ ∧
          (failureLine op service ∈ added ↔
            ¬ FirstMatchHas (outputLines out) service (expectedState op)) := by
    intro op hop
    refine ⟨?_, fun out hact hps => execute_verified rt service name op out w hreg hop hact hps⟩
    rw [execute_calls rt service name op w hreg]
    simp [hop, actionCommand]
  rcases hm with ⟨rfl, rfl, rfl⟩ | ⟨rfl, rfl, rfl⟩ | ⟨rfl, rfl, rfl⟩
  · exact key (ascii "start") (Or.inl rfl)
  · exact key (ascii "stop") (Or.inr (Or.inl rfl))
  · exact key (ascii "restart") (Or.inr (Or.inr rfl))

/-- Witness of C4: `Stop` on `edgex-core-data` issues `docker stop CoreData`,
then the list command, and checks the list output for `"Exited"`. -/
theorem operation_mapping_witness :
    services CoreDataServiceKey = some (ascii "CoreData") ∧
    (Stop (fixedRuntime ⟨[], none⟩ ⟨listTwoLines, none⟩) CoreDataServiceKey
      World.init).world.calls =
        [⟨ascii "docker", [ascii "stop", ascii "CoreData"], .CombinedOutput⟩, psCommand] ∧
    ∃ added, Stop (fixedRuntime ⟨[], none⟩ ⟨listTwoLines, none⟩) CoreDataServiceKey
        World.init =
        .ret none ⟨World.init.calls ++ [actionCommand (ascii "stop") (ascii "CoreData"),
          psCommand], World.init.stdout ++ added⟩ ∧
      (failureLine (ascii "stop") CoreDataServiceKey ∈ added ↔
        ¬ FirstMatchHas (outputLines listTwoLines) CoreDataServiceKey (ascii "Exited")) :=
  ⟨by decide,
    (operation_mapping (fixedRuntime ⟨[], none⟩ ⟨listTwoLines, none⟩) CoreDataServiceKey
      (ascii "CoreData") World.init Stop (ascii "stop") (ascii "Exited")
      (Or.inr (Or.inl ⟨rfl, rfl, rfl⟩)) (by decide)).1,
    (operation_mapping (fixedRuntime ⟨[], none⟩ ⟨listTwoLines, none⟩) CoreDataServiceKey
      (ascii "CoreData") World.init Stop (ascii "stop") (ascii "Exited")
      (Or.inr (Or.inl ⟨rfl, rfl, rfl⟩)) (by decide)).2 listTwoLines (by decide) (by decide)⟩

/-- Counterexample to C7 as stated: when the runtime executable cannot be
started for the action command, `main` on `prog edgex-core-data start` does not
terminate the process: after the banner it prints the two lines of an ordinary
command failure and returns, after that single invocation. -/
theorem action_start_failure_not_fatal :
    main (fixedRuntime ⟨[], some (.startError (ascii "executable file not found"))⟩
        ⟨[], some (.startError (ascii "executable file not found"))⟩)
      (ascii "1ms") (ascii "prog") argsStartCoreData World.init =
      .ret () ⟨[actionCommand (ascii "start") (ascii "CoreData")],
        [ascii "Starting the docker-compose-executor application...\n",
         ascii "This is the docker-compose-executor application!\n",
         ascii "Application started in: 1ms\n",
         ascii "docker command failed error message executable file not found\n",
         ascii "associated output error message \n"]⟩ := by
  decide

/-- C7, amended: an executable that cannot be started is fatal for the list
command only. For a registered service key: when the action command cannot be
started, `ExecuteDockerCommands` prints the two lines of a command failure and
returns nil after that single invocation; when the action command of `start`,
`stop` or `restart` succeeds and the list command cannot be started, the
process exits with status 1 right after printing `error running the docker
command`. `findDockerContainerStatus` exits in the same way whenever its list
command cannot be started. -/
theorem runtime_unavailable_fatal_for_list (rt : Runtime)
    (service name operation msg : GoString) (w : World)
    (hreg : services service = some name) :
    ((rt w.calls (actionCommand operation name)).err = some (.startError msg) →
      ExecuteDockerCommands rt service operation w =
        .ret none ⟨w.calls ++ [actionCommand operation name], w.stdout ++
          [ascii "docker command failed error message " ++ msg ++ ascii "\n",
           ascii "associated output error message " ++
             (rt w.calls (actionCommand operation name)).out ++ ascii "\n"]⟩) ∧
    ((operation = START ∨ operation = STOP ∨ operation = RESTART) →
      (rt w.calls (actionCommand operation name)).err = none →
      (rt (w.calls ++ [actionCommand operation name]) psCommand).err =
        some (.startError msg) →
      ExecuteDockerCommands rt service operation w =
        .exit 1 ⟨w.calls ++ [actionCommand operation name, psCommand], w.stdout ++
          [ascii "error running the docker command error message " ++ msg ++ ascii "\n"]⟩) ∧
    (∀ status, (rt w.calls psCommand).err = some (.startError msg) →
      findDockerContainerStatus rt service status w =
        .exit 1 ⟨w.calls ++ [psCommand], w.stdout ++
          [ascii "error running the docker command error message " ++ msg ++ ascii "\n"]⟩) :=
  ⟨fun hact => execute_fail rt service name operation w _ hreg hact,
   fun hop hact hps => execute_list_err rt service name operation w _ hreg hop hact hps,
   fun status hps => findDockerContainerStatus_err rt service status w _ hps⟩

/-- Witness of C7, amended: `restart` succeeds and the list command cannot be
started: exit status 1. -/
theorem runtime_unavailable_fatal_for_list_witness :
    services CoreDataServiceKey = some (ascii "CoreData") ∧
    ExecuteDockerCommands
      (fixedRuntime ⟨[], none⟩ ⟨[], some (.startError (ascii "permission denied"))⟩)
      CoreDataServiceKey RESTART World.init =
      .exit 1 ⟨[actionCommand RESTART (ascii "CoreData"), psCommand],
        [ascii "error running the docker command error message permission denied\n"]⟩ :=
  ⟨by decide,
    (runtime_unavailable_fatal_for_list
      (fixedRuntime ⟨[], none⟩ ⟨[], some (.startError (ascii "permission denied"))⟩)
      CoreDataServiceKey (ascii "CoreData") RESTART (ascii "permission denied") World.init
      (by decide)).2.1 (Or.inr (Or.inr rfl)) (by decide) (by decide)⟩

/-- Counterexample to C8 as stated: the runtime executable is launched both
times, `docker start CoreData` exits 0 and `docker ps` exits with status 1;
`main` on `prog edgex-core-data start` then terminates the process with exit
status 1. -/
theorem list_exit_status_terminates :
    main (fixedRuntime ⟨[], none⟩
        ⟨ascii "Cannot connect to the Docker daemon\n", some (.exitError (ascii "exit status 1"))⟩)
      (ascii "1ms") (ascii "prog") argsStartCoreData World.init =
      .exit 1 ⟨[actionCommand (ascii "start") (ascii "CoreData"), psCommand],
        [ascii "Starting the docker-compose-executor application...\n",
         ascii "This is the docker-compose-executor application!\n",
         ascii "Application started in: 1ms\n",
         ascii "error running the docker command error message exit status 1\n"]⟩ ∧
    (main (fixedRuntime ⟨[], none⟩
        ⟨ascii "Cannot connect to the Docker daemon\n", some (.exitError (ascii "exit status 1"))⟩)
      (ascii "1ms") (ascii "prog") argsStartCoreData World.init).exitCode = 1 := by
  decide

/-- C8, amended: besides a list command that cannot be started, a list command
that exits with a non-zero status terminates the process too. For every
(service, operation) pair and every runtime behaviour in which the list
command returns no error whenever it is run, whatever the action command
returns, the exit code is 0, and `main` runs to completion when the service
argument is not taken for a flag by `flag.Parse` (otherwise the usage is
printed and the process exits with status 0 before the dispatch). When the
service is registered, the operation is `start`, `stop` or `restart`, the
action command succeeds and the list command returns any error, a non-zero
exit status included, the process exits with status 1. -/
theorem exit_code_zero_unless_list_fails (rt : Runtime)
    (elapsed prog service operation : GoString) (rest : List GoString) (w : World) :
    ((∀ hist, (rt hist psCommand).err = none) →
      (main rt elapsed prog (service :: operation :: rest) w).exitCode = 0 ∧
      (flag.isFlag service = false →
        ∃ w1, main rt elapsed prog (service :: operation :: rest) w = .ret () w1) ∧
      (flag.isFlag service = true →
        main rt elapsed prog (service :: operation :: rest) w = HelpCallback prog w)) ∧
    (∀ name e, services service = some name →
      (operation = START ∨ operation = STOP ∨ operation = RESTART) →
      (rt w.calls (actionCommand operation name)).err = none →
      (rt (w.calls ++ [actionCommand operation name]) psCommand).err = some e →
      main rt elapsed prog (service :: operation :: rest) w =
        .exit 1 ⟨w.calls ++ [actionCommand operation name, psCommand],
          (banner elapsed w).stdout ++
            [ascii "error running the docker command error message " ++ e.Error ++
              ascii "\n"]⟩ ∧
      (main rt elapsed prog (service :: operation :: rest) w).exitCode = 1) := by
  constructor
  · intro hlist
    have hret : flag.isFlag service = false →
        ∃ w1, main rt elapsed prog (service :: operation :: rest) w = .ret () w1 := by
      intro hf
      rw [main_of_not_flag rt elapsed prog service _ w hf]
      obtain ⟨e, w1, hE⟩ := execute_returns rt service operation (banner elapsed w) hlist
      obtain ⟨h1, h2, h3, h4⟩ :=
        dispatch_cases rt prog service operation rest (banner elapsed w)
      by_cases hop : operation = START ∨ operation = STOP ∨ operation = RESTART
      · rcases hop with h | h | h
        · rw [h1 h, hE]; exact report_ret _ _ _ _
        · rw [h2 h, hE]; exact report_ret _ _ _ _
        · rw [h3 h, hE]; exact report_ret _ _ _ _
      · exact ⟨_, h4 hop⟩
    refine ⟨?_, hret, fun hf => main_of_flag rt elapsed prog service _ w hf⟩
    cases hf : flag.isFlag service with
    | true => rw [main_of_flag rt elapsed prog service _ w hf]; rfl
    | false =>
      obtain ⟨w1, h⟩ := hret hf
      rw [h]; rfl
  · intro name e hreg hop hact hps
    have hf := registered_not_flag service name hreg
    have hE := execute_list_err rt service name operation (banner elapsed w) e hreg hop
      hact hps
    obtain ⟨h1, h2, h3, -⟩ := dispatch_cases rt prog service operation rest (banner elapsed w)
    have hmain : main rt elapsed prog (service :: operation :: rest) w =
        .exit 1 ⟨w.calls ++ [actionCommand operation name, psCommand],
          (banner elapsed w).stdout ++
            [ascii "error running the docker command error message " ++ e.Error ++
              ascii "\n"]⟩ := by
      rw [main_of_not_flag rt elapsed prog service _ w hf]
      rcases hop with h | h | h
      · rw [h1 h, hE]; rfl
      · rw [h2 h, hE]; rfl
      · rw [h3 h, hE]; rfl
    exact ⟨hmain, by rw [hmain]; rfl⟩

/-- Witness of C8, amended: `docker stop CoreData` exits with status 1 and the
list command would succeed: `main` returns, exit code 0. -/
theorem exit_code_zero_unless_list_fails_witness :
    (∀ hist, (fixedRuntime ⟨[], some (.exitError (ascii "exit status 1"))⟩
      ⟨listCoreDataUp, none⟩ hist psCommand).err = none) ∧
    (main (fixedRuntime ⟨[], some (.exitError (ascii "exit status 1"))⟩ ⟨listCoreDataUp, none⟩)
      (ascii "1ms") (ascii "prog") [ascii "edgex-core-data", ascii "stop"]
      World.init).exitCode = 0 ∧
    (flag.isFlag (ascii "edgex-core-data") = false) ∧
    ∃ w1, main
      (fixedRuntime ⟨[], some (.exitError (ascii "exit status 1"))⟩ ⟨listCoreDataUp, none⟩)
      (ascii "1ms") (ascii "prog") [ascii "edgex-core-data", ascii "stop"] World.init =
        .ret () w1 :=
  ⟨fun _ => rfl,
    ((exit_code_zero_unless_list_fails
      (fixedRuntime ⟨[], some (.exitError (ascii "exit status 1"))⟩ ⟨listCoreDataUp, none⟩)
      (ascii "1ms") (ascii "prog") (ascii "edgex-core-data") (ascii "stop") []
      World.init).1 (fun _ => rfl)).1,
    by decide,
    ((exit_code_zero_unless_list_fails
      (fixedRuntime ⟨[], some (.exitError (ascii "exit status 1"))⟩ ⟨listCoreDataUp, none⟩)
      (ascii "1ms") (ascii "prog") (ascii "edgex-core-data") (ascii "stop") []
      World.init).1 (fun _ => rfl)).2.1 (by decide)⟩

/-- C9: the returned error reflects only the registry lookup. Whenever
`ExecuteDockerCommands` (or `Start`, `Stop`, `Restart`) returns, the error is
non-nil if and only if the service key is not a key of `services`. A
registered key yields nil when the action command fails, and when it succeeds
and the list command returns no error, whatever the verification answers.
Hence `main`, for `start`, `stop` or `restart`, prints nothing of its own after
the banner for a registered key: it prints its `error ... service` line, after
the `unknown service` line, only for an unregistered key (one that
`flag.Parse` does not take for a flag, for which only the usage is printed). -/
theorem error_reflects_lookup (rt : Runtime) (service operation : GoString) (w : World) :
    (∀ e w1, ExecuteDockerCommands rt service operation w = .ret e w1 →
      (e ≠ none ↔ services service = none)) ∧
    (∀ e w1, Start rt service w = .ret e w1 → (e ≠ none ↔ services service = none)) ∧
    (∀ e w1, Stop rt service w = .ret e w1 → (e ≠ none ↔ services service = none)) ∧
    (∀ e w1, Restart rt service w = .ret e w1 → (e ≠ none ↔ services service = none)) ∧
    (∀ name, services service = some name →
      ((rt w.calls (actionCommand operation name)).err ≠ none →
        ∃ w1, ExecuteDockerCommands rt service operation w = .ret none w1) ∧
      ((rt w.calls (actionCommand operation name)).err = none →
        (rt (w.calls ++ [actionCommand operation name]) psCommand).err = none →
        ∃ w1, ExecuteDockerCommands rt service operation w = .ret none w1)) ∧
    (∀ elapsed prog rest, (operation = START ∨ operation = STOP ∨ operation = RESTART) →
      (services service ≠ none →
        (main rt elapsed prog (service :: operation :: rest) w).world =
          (ExecuteDockerCommands rt service operation (banner elapsed w)).world) ∧
      (services service = none → flag.isFlag service = false →
        ∃ msg, (operation = START ∧ msg = ascii "error starting service: " ∨
            operation = STOP ∧ msg = ascii "error stopping service: " ∨
            operation = RESTART ∧ msg = ascii "error restarting service: ") ∧
          main rt elapsed prog (service :: operation :: rest) w =
            .ret () ⟨w.calls, (banner elapsed w).stdout ++
              [ascii "unknown service: " ++ service ++ ascii "\n",
               msg ++ ascii " " ++ service ++ ascii "\n"]⟩) ∧
      (flag.isFlag service = true →
        services service = none ∧
        main rt elapsed prog (service :: operation :: rest) w =
          .exit 0 ⟨w.calls, w.stdout ++
            [usageStr ++ ascii "%!(EXTRA string=" ++ prog ++ ascii ")" ++ ascii "\n"]⟩)) := by
  refine ⟨execute_ret_error rt service operation w, execute_ret_error rt service _ w,
    execute_ret_error rt service _ w, execute_ret_error rt service _ w, ?_, ?_⟩
  · intro name hreg
    constructor
    · intro hact
      cases he : (rt w.calls (actionCommand operation name)).err with
      | none => exact absurd he hact
      | some e => exact ⟨_, execute_fail rt service name operation w e hreg he⟩
    · intro hact hps
      by_cases hop : operation = START ∨ operation = STOP ∨ operation = RESTART
      · have hps2 : rt (w.calls ++ [actionCommand operation name]) psCommand =
            ⟨(rt (w.calls ++ [actionCommand operation name]) psCommand).out, none⟩ := by
          rw [← hps]
        obtain ⟨added, hE, -⟩ :=
          execute_verified rt service name operation _ w hreg hop hact hps2
        exact ⟨_, hE⟩
      · exact ⟨_, execute_other rt service name operation w hreg hact hop⟩
  · intro elapsed prog rest hop
    obtain ⟨h1, h2, h3, -⟩ := dispatch_cases rt prog service operation rest (banner elapsed w)
    refine ⟨?_, ?_, ?_⟩
    · intro hreg
      have hf : flag.isFlag service = false := by
        cases hs : services service with
        | none => exact absurd hs hreg
        | some name => exact registered_not_flag service name hs
      have hnone : ∀ e w1,
          ExecuteDockerCommands rt service operation (banner elapsed w) = .ret e w1 →
            e = none := by
        intro e w1 h
        by_contra hne
        exact hreg ((execute_ret_error rt service operation _ e w1 h).mp hne)
      rw [main_of_not_flag rt elapsed prog service _ w hf]
      rcases hop with h | h | h
      · rw [h1 h]; exact report_world _ _ _ hnone
      · rw [h2 h]; exact report_world _ _ _ hnone
      · rw [h3 h]; exact report_world _ _ _ hnone
    · intro hreg hf
      have hE := execute_unknown rt service operation (banner elapsed w) hreg
      rw [main_of_not_flag rt elapsed prog service _ w hf]
      rcases hop with h | h | h
      · refine ⟨_, Or.inl ⟨h, rfl⟩, ?_⟩
        rw [h1 h, hE]
        simp [report, Println, List.intercalate, banner_calls]
      · refine ⟨_, Or.inr (Or.inl ⟨h, rfl⟩), ?_⟩
        rw [h2 h, hE]
        simp [report, Println, List.intercalate, banner_calls]
      · refine ⟨_, Or.inr (Or.inr ⟨h, rfl⟩), ?_⟩
        rw [h3 h, hE]
        simp [report, Println, List.intercalate, banner_calls]
    · intro hf
      refine ⟨?_, ?_⟩
      · cases hs : services service with
        | none => rfl
        | some name =>
          rw [registered_not_flag service name hs] at hf
          exact absurd hf (by decide)
      · rw [main_of_flag rt elapsed prog service _ w hf]
        simp [HelpCallback]

/-- Witness of C9: `stop` on the registered key `edgex-core-data` returns nil
although `docker stop CoreData` exits with status 1. -/
theorem error_reflects_lookup_witness :
    ExecuteDockerCommands
      (fixedRuntime ⟨[], some (.exitError (ascii "exit status 1"))⟩ ⟨listCoreDataUp, none⟩)
      CoreDataServiceKey STOP World.init =
      .ret none ⟨[actionCommand STOP (ascii "CoreData")],
        [ascii "docker command failed error message exit status 1\n",
         ascii "associated output error message \n"]⟩ ∧
    ((none : Option GoString) ≠ none ↔ services CoreDataServiceKey = none) :=
  ⟨by decide,
    (error_reflects_lookup
      (fixedRuntime ⟨[], some (.exitError (ascii "exit status 1"))⟩ ⟨listCoreDataUp, none⟩)
      CoreDataServiceKey STOP World.init).1 none
      ⟨[actionCommand STOP (ascii "CoreData")],
        [ascii "docker command failed error message exit status 1\n",
         ascii "associated output error message \n"]⟩ (by decide)⟩

end DockerCompose
